import Mathlib

/-!
Shallow embedding of `deepscan/starmask.py` (the adaptive aperture-fitting
engine for saturated-star masking) and theorems settling the frozen claims.

Modelling conventions:
* 2D numpy arrays of floats become `NpArray`: a shape `(h, w)` together with a
  total pixel function `ℕ → ℕ → Option ℚ`; `none` models a non-finite entry
  (NaN), matching the `~np.isfinite` exclusion in `measure_average_flux`.
* Python ints (`dr`, `Rmax`, coordinates) become `ℤ`; flux values become `ℚ`.
* `np.inf` returned by `measure_average_flux` for an empty annulus becomes
  `none : Option ℚ`; the comparison `sb < Icrit` becomes `sbLt`, which is
  `false` on `none` exactly as `inf < Icrit` is false.
* The unbounded `while True` growth loop becomes fuel-indexed `growAux`;
  `growAux fuel i = none` means the loop has not exited within `fuel`
  iterations starting from ring index `i`.
* External collaborators (scipy `label`, `maximum_position`, the FFT
  convolution, the ellipse rasterizer) are out of scope per the spec and are
  passed in as opaque pure functions (`Collab`).
* In-place numpy mutation is modelled by a store (`NpStore`, a list of
  arrays): `np.array(data)` allocates a fresh index, `data[mask] = nan`
  mutates only that fresh index (`List.set`).
* The annulus bounding rectangle is clipped to `[0, w) × [0, h)` and an empty
  clipped range yields no pixels; numpy's negative-end-index wraparound (which
  the source could only hit for a centroid far outside the image, impossible
  for centroids produced by `maximum_position`) is not modelled.
-/

namespace DeepScan

/-- A 2D float array: shape plus pixel lookup; `none` = non-finite (NaN). -/
structure NpArray where
  h : ℕ
  w : ℕ
  pix : ℕ → ℕ → Option ℚ

/-- `geometry.ellipse(x0, y0, a, b)` as produced by `_fit_apertures`:
a circular aperture descriptor. -/
structure Aperture where
  x0 : ℤ
  y0 : ℤ
  a : ℤ
  b : ℤ
deriving DecidableEq

/-- The midpoint `(a + b) / 2` of two rationals, spelled with `mkRat` over
the numerators and denominators so that it evaluates inside `decide`
(`Rat.add` and `Rat.div` are irreducible); `ratMean2_eq` proves it equal to
`(a + b) / 2`. -/
def ratMean2 (a b : ℚ) : ℚ :=
  mkRat (a.num * (b.den : ℤ) + b.num * (a.den : ℤ)) (2 * (a.den * b.den))

/-- `ratMean2` is extensionally the midpoint `(a + b) / 2`. -/
theorem ratMean2_eq (a b : ℚ) : ratMean2 a b = (a + b) / 2 := by
  have hda : (a.den : ℚ) ≠ 0 := by exact_mod_cast a.den_nz
  have hdb : (b.den : ℚ) ≠ 0 := by exact_mod_cast b.den_nz
  have hna : (a.num : ℚ) = a * a.den := (div_eq_iff hda).mp (Rat.num_div_den a)
  have hnb : (b.num : ℚ) = b * b.den := (div_eq_iff hdb).mp (Rat.num_div_den b)
  rw [ratMean2, Rat.mkRat_eq_divInt, Rat.divInt_eq_div]
  push_cast
  rw [hna, hnb, div_eq_div_iff (by positivity) (by norm_num)]
  ring

/-- `np.median` on a nonempty 1D sample: sort, take the middle element, or the
mean of the two middle elements for even length. -/
def median (l : List ℚ) : ℚ :=
  let s := List.insertionSort (· ≤ ·) l
  if l.length % 2 = 1 then s.getD (l.length / 2) 0
  else ratMean2 (s.getD (l.length / 2 - 1) 0) (s.getD (l.length / 2) 0)

/-- The annulus membership test of `measure_average_flux` line 85:
`(d2s >= r0**2) * (d2s < (r0+dr)**2)` for one pixel's squared distance. -/
def annCond (r0 dr d2 : ℤ) : Bool :=
  decide (r0 ^ 2 ≤ d2) && decide (d2 < (r0 + dr) ^ 2)

/-- `np.arange(a, b)` over integers. -/
def intRange (a b : ℤ) : List ℤ :=
  (List.range (b - a).toNat).map (fun k => a + (k : ℤ))

/-- The eligible pixel values of the annulus, i.e. `data[ymin:ymax,
xmin:xmax][cond]` from `measure_average_flux` lines 68-89: bounding rectangle
clipped to the image extent, annulus membership via `annCond`, and non-finite
pixels (the `mask_crop`) dropped. -/
def annulusValues (data : NpArray) (x0 y0 r0 dr : ℤ) : List ℚ :=
  let xmin := max (x0 - r0 - dr) 0
  let xmax := min (x0 + r0 + dr + 1) (data.w : ℤ)
  let ymin := max (y0 - r0 - dr) 0
  let ymax := min (y0 + r0 + dr + 1) (data.h : ℤ)
  ((intRange ymin ymax).map (fun y =>
    (intRange xmin xmax).filterMap (fun x =>
      if annCond r0 dr ((x - x0) ^ 2 + (y - y0) ^ 2) then data.pix y.toNat x.toNat
      else none))).flatten

/-- `measure_average_flux(data, x0, y0, r0, dr)` with the default
`np.median` estimator; `none` models the `np.inf` returned when the annulus
holds no eligible pixel (`cond.any()` false). -/
def measure_average_flux (data : NpArray) (x0 y0 r0 dr : ℤ) : Option ℚ :=
  let vals := annulusValues data x0 y0 r0 dr
  if vals.isEmpty then none else some (median vals)

/-- The comparison `sb < Icrit` of `_fit_apertures` line 114, where `sb` may
be `np.inf` (here `none`): `inf < Icrit` is always false. -/
def sbLt : Option ℚ → ℚ → Bool
  | none, _ => false
  | some v, c => decide (v < c)

/-- One iteration of the `while True` loop of `_fit_apertures` lines 105-125
at ring index `i`: `some ap` when the iteration exits the loop emitting `ap`
(either the flux-threshold branch or the `r >= Rmax` branch), `none` when the
loop continues with `i+1`. -/
def growStep (data : NpArray) (x0 y0 : ℤ) (Icrit : ℚ) (dr Rmax : ℤ) (i : ℕ) :
    Option Aperture :=
  let r : ℤ := ((i : ℤ) + 1) * dr
  let sb := measure_average_flux data x0 y0 ((i : ℤ) * dr) dr
  if sbLt sb Icrit then some ⟨x0, y0, r, r⟩
  else if Rmax ≤ r then some ⟨x0, y0, Rmax, Rmax⟩
  else none

/-- The growth loop with `fuel` remaining iterations, starting at ring index
`i`; `none` means the loop has not exited within `fuel` iterations. -/
def growAux (data : NpArray) (x0 y0 : ℤ) (Icrit : ℚ) (dr Rmax : ℤ) :
    ℕ → ℕ → Option Aperture
  | 0, _ => none
  | fuel + 1, i =>
    match growStep data x0 y0 Icrit dr Rmax i with
    | some ap => some ap
    | none => growAux data x0 y0 Icrit dr Rmax fuel (i + 1)

/-- One full grow call of `_fit_apertures` for the centroid `mp = (row, col)`:
the loop starts at `i = 0` with `x0 = mp[1]`, `y0 = mp[0]`. -/
def growOne (fuel : ℕ) (data : NpArray) (Icrit : ℚ) (Rmax dr : ℤ)
    (mp : ℤ × ℤ) : Option Aperture :=
  growAux data mp.2 mp.1 Icrit dr Rmax fuel 0

/-- The grow call for one centroid reaches an exit branch after finitely many
ring iterations. -/
def growTerminates (data : NpArray) (x0 y0 : ℤ) (Icrit : ℚ) (dr Rmax : ℤ) :
    Prop :=
  ∃ fuel, (growAux data x0 y0 Icrit dr Rmax fuel 0).isSome

/-- The worker `_fit_apertures(data, Icrit, Rmax, dr, mps)`: one grow call per
centroid of the chunk, appended in chunk order. -/
def fit_apertures_worker (fuel : ℕ) (data : NpArray) (Icrit : ℚ)
    (Rmax dr : ℤ) (mps : List (ℤ × ℤ)) : List (Option Aperture) :=
  mps.map (growOne fuel data Icrit Rmax dr)

/-- The slicing loop `[mps[i:i + n] for i in range(0, len(mps), n)]`, written
with the list's length as structural fuel (`chunkGoAux n l.length l` computes
it); requires `n ≥ 1` to match Python, where `n = 0` never reaches this point
(`range` raises first). -/
def chunkGoAux {α : Type} (n : ℕ) : ℕ → List α → List (List α)
  | _, [] => []
  | 0, _ :: _ => []
  | fuel + 1, x :: xs => (x :: xs).take n :: chunkGoAux n fuel (xs.drop (n - 1))

/-- `[mps[i:i + n] for i in range(0, len(mps), n)]` for step `n ≥ 1`. -/
def chunkGo {α : Type} (n : ℕ) (l : List α) : List (List α) :=
  chunkGoAux n l.length l

/-- Lines 154-155 of `fit_apertures`: `n = int(len(mps)/Nthreads)` followed by
the slicing comprehension. `none` models the `ValueError` that
`range(0, len(mps), 0)` raises whenever `n = 0` (that is, whenever
`len(mps) < Nthreads`, including the empty list). -/
def makeChunks {α : Type} (l : List α) (nthreads : ℕ) : Option (List (List α)) :=
  let n := l.length / nthreads
  if n = 0 then none else some (chunkGo n l)

/-- `data[mask] = float(np.nan)`: the masked pixels become non-finite. -/
def applyMaskArr (a : NpArray) (mask : ℕ → ℕ → Bool) : NpArray :=
  ⟨a.h, a.w, fun y x => if mask y x then none else a.pix y x⟩

/-- The dispatch core of `fit_apertures` lines 153-172 on the already
NaN-masked image (the workers are called with `mask=None`): chunk the
centroid list, run `_fit_apertures` on every chunk, and flatten the
per-chunk results in chunk order. `none` is the `ValueError` raised by the
chunking comprehension. -/
def fit_apertures_pure (fuel : ℕ) (data : NpArray) (Icrit : ℚ)
    (mps : List (ℤ × ℤ)) (dr Rmax : ℤ) (nthreads : ℕ) :
    Option (List (Option Aperture)) :=
  (makeChunks mps nthreads).map (fun cs =>
    (cs.map (fit_apertures_worker fuel data Icrit Rmax dr)).flatten)

/-- A store of numpy arrays: references are list indices, `np.array(data)`
appends a fresh copy, in-place assignment is `List.set` at one index. -/
abbrev NpStore := List NpArray

/-- Read an array reference out of the store. -/
def storeGet (s : NpStore) (r : ℕ) : NpArray :=
  s.getD r ⟨0, 0, fun _ _ => none⟩

/-- The external collaborators consumed at their interface boundary (spec §1,
§6): connected-component labeling, per-label argmax centroids, the FFT
convolutions behind smoothing and dilation, and the ellipse rasterizer. They
are pure functions: none of them touches the store. -/
structure Collab where
  labelF : (ℕ → ℕ → Bool) → ℕ × (ℕ → ℕ → ℕ)
  maxposF : NpArray → (ℕ → ℕ → ℕ) → ℕ → List (ℤ × ℤ)
  smoothF : NpArray → ℤ → NpArray
  convF : NpArray → ℤ → NpArray
  rasterF : List Aperture → ℕ → ℕ → Bool

/-- `find_sat_regions(data, saturate)`: threshold `data > saturate` (false on
non-finite pixels, as for NaN) and delegate to the external labeler, which
returns `(Nobjs, labeled)`. -/
def find_sat_regions (labelF : (ℕ → ℕ → Bool) → ℕ × (ℕ → ℕ → ℕ))
    (data : NpArray) (saturate : ℚ) : ℕ × (ℕ → ℕ → ℕ) :=
  labelF (fun y x =>
    match data.pix y x with
    | some v => decide (saturate < v)
    | none => false)

/-- `dilate_large(mask, kernel, tol)`: FFT-convolve the 0/1 mask (external),
zero everything `≤ tol`, set the rest to 1, i.e. a pixel survives iff its
convolution value exceeds `tol` (a non-finite value also survives, as with
NaN under `conv[conv<=tol] = 0; conv[conv!=0] = 1`). -/
def dilate_large (convF : NpArray → ℤ → NpArray) (m01 : NpArray)
    (size : ℤ) (tol : ℚ) : ℕ → ℕ → Bool :=
  let conv := convF m01 size
  fun y x =>
    match conv.pix y x with
    | some v => decide (tol < v)
    | none => true

/-- `fit_apertures(data, Icrit, Nobjs, labeled, convolved, mask, dr, Rmax,
Nthreads)` over the store: default `convolved` to the raw image, get the
centroids from the external `maximum_position`, make the defensive copy
`data = np.array(data)` (a fresh store index), NaN-mask only that copy, and
dispatch the chunked grow calls on it. -/
def fit_apertures_st (maxposF : NpArray → (ℕ → ℕ → ℕ) → ℕ → List (ℤ × ℤ))
    (fuel : ℕ) (s : NpStore) (rData : ℕ) (Icrit : ℚ) (Nobjs : ℕ)
    (labeled : ℕ → ℕ → ℕ) (convolvedOpt : Option NpArray)
    (mask : ℕ → ℕ → Bool) (dr Rmax : ℤ) (Nthreads : ℕ) :
    NpStore × Option (List (Option Aperture)) :=
  let data0 := storeGet s rData
  let convolved := convolvedOpt.getD data0
  let mps := maxposF convolved labeled Nobjs
  let s1 := s ++ [data0]
  let r1 := s.length
  let s2 := s1.set r1 (applyMaskArr (storeGet s1 r1) mask)
  (s2, fit_apertures_pure fuel (storeGet s2 r1) Icrit mps dr Rmax Nthreads)

/-- The orchestrator `starmask` over the store. Follows lines 176-240:
find saturated regions, optionally smooth (`convolve_size` truthy), optionally
dilate (`dilate_size` truthy, else the raw blob mask), fit apertures on a
fresh copy (`np.array(data)` at the call line) with the module constant
`NTHREADS` as worker count (the `Nthreads` argument is never forwarded), then
OR the rasterized apertures with the dilated mask. The result is `none` when
the fitting stage raises (`ValueError` chunking) or some grow call never
returns within `fuel`. -/
def starmask_st (c : Collab) (fuel : ℕ) (s : NpStore) (rData : ℕ)
    (saturate Icrit : ℚ) (convolve_size dilate_size dr Rmax : ℤ)
    (Nthreads NTHREADS : ℕ) : NpStore × Option (ℕ → ℕ → Bool) :=
  let data := storeGet s rData
  let fs := find_sat_regions c.labelF data saturate
  let Nobjs := fs.1
  let labeled := fs.2
  let convolvedOpt : Option NpArray :=
    if convolve_size = 0 then none else some (c.smoothF data convolve_size)
  let dilated : ℕ → ℕ → Bool :=
    if dilate_size = 0 then (fun y x => decide (labeled y x ≠ 0))
    else dilate_large c.convF
      ⟨data.h, data.w, fun y x => some (if labeled y x ≠ 0 then 1 else 0)⟩
      dilate_size (1 / 100000)
  let s1 := s ++ [data]
  let res := fit_apertures_st c.maxposF fuel s1 s.length Icrit Nobjs labeled
    convolvedOpt dilated dr Rmax NTHREADS
  (res.1,
    match res.2 with
    | none => none
    | some aps =>
      if aps.all Option.isSome then
        some (fun y x => c.rasterF (aps.filterMap id) y x || dilated y x)
      else none)

/-! ### Concrete inputs used by witnesses and counterexamples -/

/-- A 1×1 image holding the single finite value 0. -/
def img0 : NpArray := ⟨1, 1, fun _ _ => some 0⟩

/-- A 3×3 image of finite zeros. -/
def img3 : NpArray := ⟨3, 3, fun _ _ => some 0⟩

/-- Concrete collaborators for a run on an image with no saturated pixel:
the labeler reports zero regions with an all-zero label map (its documented
output on an all-false binary image), `maximum_position` returns one centroid
per label id, hence the empty list for zero labels; smoothing, convolution
and rasterization are inert. -/
def collab0 : Collab :=
  ⟨fun _ => (0, fun _ _ => 0),
   fun _ _ n => List.replicate n (0, 0),
   fun a _ => a,
   fun a _ => a,
   fun _ _ _ => false⟩

/-! ### The growth loop: skipping already-refused rings -/

/-- If the first `k` steps after index `j` all refuse to exit, the loop with
`k` extra fuel from `j` equals the loop from `j + k`. -/
theorem growAux_skip (data : NpArray) (x0 y0 : ℤ) (Icrit : ℚ) (dr Rmax : ℤ) :
    ∀ k fuel j, (∀ m, m < k → growStep data x0 y0 Icrit dr Rmax (j + m) = none) →
      growAux data x0 y0 Icrit dr Rmax (k + fuel) j =
        growAux data x0 y0 Icrit dr Rmax fuel (j + k) := by
  intro k
  induction k with
  | zero => intro fuel j _; simp
  | succ k ih =>
    intro fuel j h
    have h0 : growStep data x0 y0 Icrit dr Rmax j = none := by
      have := h 0 (Nat.succ_pos k)
      simpa using this
    have hrest : ∀ m, m < k →
        growStep data x0 y0 Icrit dr Rmax (j + 1 + m) = none := by
      intro m hm
      have := h (m + 1) (by omega)
      have harr : j + (m + 1) = j + 1 + m := by omega
      rwa [harr] at this
    have hunf : growAux data x0 y0 Icrit dr Rmax (k + 1 + fuel) j =
        growAux data x0 y0 Icrit dr Rmax (k + fuel) (j + 1) := by
      have : k + 1 + fuel = (k + fuel) + 1 := by omega
      rw [this]
      simp [growAux, h0]
    rw [hunf, ih fuel (j + 1) hrest]
    have : j + 1 + k = j + (k + 1) := by omega
    rw [this]

/-- Claim C2 (corrected): for a single-blob grow call, at the first ring
index `i` whose annulus average flux is strictly less than `Icrit` (with no
earlier exit), the loop terminates and emits an aperture with `x0` the
centroid column, `y0` the centroid row, and `a = b = r = (i+1)*dr`. The
original claim's non-strict bound is refuted by
`grow_equality_at_Icrit_continues`: the source tests `sb < Icrit`, so an
annulus average exactly equal to `Icrit` does not trigger this exit. -/
theorem grow_stops_at_first_strict_drop (data : NpArray) (x0 y0 : ℤ)
    (Icrit : ℚ) (dr Rmax : ℤ) (i : ℕ)
    (hprev : ∀ j, j < i → growStep data x0 y0 Icrit dr Rmax j = none)
    (hlt : sbLt (measure_average_flux data x0 y0 ((i : ℤ) * dr) dr) Icrit = true)
    (fuel : ℕ) (hfuel : i < fuel) :
    growAux data x0 y0 Icrit dr Rmax fuel 0 =
      some ⟨x0, y0, ((i : ℤ) + 1) * dr, ((i : ℤ) + 1) * dr⟩ := by
  have hstep : growStep data x0 y0 Icrit dr Rmax i =
      some ⟨x0, y0, ((i : ℤ) + 1) * dr, ((i : ℤ) + 1) * dr⟩ := by
    simp [growStep, hlt]
  have hskip := growAux_skip data x0 y0 Icrit dr Rmax i (fuel - i) 0
    (fun m hm => by simpa using hprev m hm)
  have hfe : i + (fuel - i) = fuel := by omega
  obtain ⟨g, hg⟩ : ∃ g, fuel - i = g + 1 := ⟨fuel - i - 1, by omega⟩
  rw [← hfe, hskip, hg]
  simp [growAux, hstep]

/-- Claim C2, counterexample to the original wording: on the all-zero 3×3
image with `Icrit = 0`, `dr = 1`, `Rmax = 5`, the ring-0 annulus average is
exactly `Icrit` (0), yet the loop does not stop at radius 1: it runs to the
radius-exhausted exit and emits `a = b = 5 = Rmax` instead of the claimed
`a = b = 1`. -/
theorem grow_equality_at_Icrit_continues :
    measure_average_flux img3 1 1 0 1 = some 0 ∧
      growAux img3 1 1 0 1 5 10 0 = some ⟨1, 1, 5, 5⟩ := by
  constructor
  · decide
  · decide

/-- Witness for `grow_stops_at_first_strict_drop` at a concrete input: on the
all-zero 3×3 image with `Icrit = 1`, `dr = 1`, `Rmax = 5`, ring 0 already
drops strictly below `Icrit` and the loop emits the radius-`1` aperture. -/
theorem grow_stops_at_first_strict_drop_witness :
    sbLt (measure_average_flux img3 1 1 0 1) 1 = true ∧
      growAux img3 1 1 1 1 5 1 0 = some ⟨1, 1, 1, 1⟩ :=
  ⟨by decide,
   grow_stops_at_first_strict_drop img3 1 1 1 1 5 0
     (fun j hj => absurd hj (Nat.not_lt_zero j)) (by decide) 1 (by decide)⟩

/-- Claim C1 (code bug): with zero saturated regions the centroid list is
empty, so `fit_apertures` computes chunk size `n = int(0/Nthreads) = 0` and
the comprehension `[mps[i:i+n] for i in range(0, 0, 0)]` raises `ValueError`
(`range` arg 3 must not be zero). Evaluated here end to end: on a 1×1 zero
image with `saturate = 1` (no pixel saturated, labeler returns count 0),
`starmask` propagates the error (`none`) instead of returning the dilated
mask with zero apertures. -/
theorem starmask_zero_regions_errors :
    (starmask_st collab0 100 [img0] 0 1 1 0 0 20 1000 4 4).2 = none := rfl

/-! ### `dr = 0`: the growth loop never exits -/

/-- With ring width 0 the annulus test `(i*0)^2 ≤ d2 < (i*0 + 0)^2` is
unsatisfiable. -/
theorem annCond_dr_zero (r0 d2 : ℤ) : annCond r0 0 d2 = false := by
  unfold annCond
  rw [add_zero]
  rcases lt_or_le d2 (r0 ^ 2) with h | h
  · have hd : decide (r0 ^ 2 ≤ d2) = false := decide_eq_false (not_le.mpr h)
    simp [hd]
  · have hd : decide (d2 < r0 ^ 2) = false := decide_eq_false (not_lt.mpr h)
    simp [hd]

/-- With ring width 0 every annulus is empty. -/
theorem annulusValues_dr_zero (data : NpArray) (x0 y0 r0 : ℤ) :
    annulusValues data x0 y0 r0 0 = [] := by
  simp [annulusValues, annCond_dr_zero]

/-- With ring width 0 every annulus average is `np.inf`. -/
theorem measure_dr_zero (data : NpArray) (x0 y0 r0 : ℤ) :
    measure_average_flux data x0 y0 r0 0 = none := by
  simp [measure_average_flux, annulusValues_dr_zero]

/-- With `dr = 0` and `Rmax > 0` no loop iteration can exit: the average is
`inf` (never `< Icrit`) and the candidate radius stays 0 (never `≥ Rmax`). -/
theorem growStep_dr_zero (data : NpArray) (x0 y0 : ℤ) (Icrit : ℚ)
    (Rmax : ℤ) (h : 0 < Rmax) (i : ℕ) :
    growStep data x0 y0 Icrit 0 Rmax i = none := by
  simp [growStep, measure_dr_zero, sbLt, not_le.mpr h]

/-- With `dr = 0` and `Rmax > 0` the loop runs forever from any index. -/
theorem growAux_dr_zero (data : NpArray) (x0 y0 : ℤ) (Icrit : ℚ)
    (Rmax : ℤ) (h : 0 < Rmax) :
    ∀ fuel i, growAux data x0 y0 Icrit 0 Rmax fuel i = none := by
  intro fuel
  induction fuel with
  | zero => intro i; rfl
  | succ n ih => intro i; simp [growAux, growStep_dr_zero data x0 y0 Icrit Rmax h, ih]

/-- Claim C5 (corrected): `starmask` performs no up-front configuration
validation. An invalid `dr = 0` (with `Rmax > 0`) is not surfaced as an
immediate fatal error: the call proceeds into the pipeline and every
aperture-growing loop spins forever — each annulus is empty, its average is
treated as `+inf`, and the candidate radius stays 0 — so the call hangs
instead of failing fast. -/
theorem starmask_dr_zero_diverges (data : NpArray) (x0 y0 : ℤ) (Icrit : ℚ)
    (Rmax : ℤ) (h : 0 < Rmax) : ¬ growTerminates data x0 y0 Icrit 0 Rmax := by
  rintro ⟨fuel, hf⟩
  rw [growAux_dr_zero data x0 y0 Icrit Rmax h] at hf
  simp at hf

/-- Claim C5, counterexample to the original wording: with the invalid
configuration `dr = 0` (and default-like `Rmax = 1000`) the pipeline's growth
loop is entered and never reaches an exit branch on a concrete 3×3 image —
the call does not fail up front (nor ever). Alongside, the dispatch stage
accepts the invalid `dr` without any error: chunking succeeds and returns the
still-running grow call. -/
theorem starmask_dr_zero_not_rejected :
    fit_apertures_pure 100 img3 1 [(1, 1)] 0 1000 1 =
        some [growAux img3 1 1 1 0 1000 100 0] ∧
      ¬ growTerminates img3 1 1 1 0 1000 := by
  constructor
  · rfl
  · rintro ⟨fuel, hf⟩
    rw [growAux_dr_zero img3 1 1 1 1000 (by norm_num)] at hf
    simp at hf

/-- Witness for `starmask_dr_zero_diverges` at a concrete input. -/
theorem starmask_dr_zero_diverges_witness :
    (0 : ℤ) < 7 ∧ ¬ growTerminates img0 0 0 2 0 7 :=
  ⟨by norm_num, starmask_dr_zero_diverges img0 0 0 2 7 (by norm_num)⟩

/-! ### Termination of the growth loop for positive ring width -/

/-- If the step at index `j + fuel` exits, the loop from `j` with `fuel + 1`
iterations exits. -/
theorem growAux_reaches (data : NpArray) (x0 y0 : ℤ) (Icrit : ℚ)
    (dr Rmax : ℤ) :
    ∀ fuel j, (growStep data x0 y0 Icrit dr Rmax (j + fuel)).isSome = true →
      (growAux data x0 y0 Icrit dr Rmax (fuel + 1) j).isSome = true := by
  intro fuel
  induction fuel with
  | zero =>
    intro j h
    rw [Nat.add_zero] at h
    unfold growAux
    cases hs : growStep data x0 y0 Icrit dr Rmax j with
    | some ap => simp
    | none => rw [hs] at h; simp at h
  | succ n ih =>
    intro j h
    unfold growAux
    cases hs : growStep data x0 y0 Icrit dr Rmax j with
    | some ap => simp
    | none =>
      have harr : j + 1 + n = j + (n + 1) := by omega
      exact ih (j + 1) (by rwa [harr])

/-- Any step whose candidate radius `(i+1)*dr` has reached `Rmax` exits. -/
theorem growStep_isSome_of_reached (data : NpArray) (x0 y0 : ℤ) (Icrit : ℚ)
    (dr Rmax : ℤ) (i : ℕ) (h : Rmax ≤ ((i : ℤ) + 1) * dr) :
    (growStep data x0 y0 Icrit dr Rmax i).isSome = true := by
  unfold growStep
  cases hb : sbLt (measure_average_flux data x0 y0 ((i : ℤ) * dr) dr) Icrit with
  | true => simp [hb]
  | false => simp [hb, h]

/-- Claim C6 (corrected): for a positive integer ring width `dr ≥ 1` every
individual grow call terminates, within `Rmax.toNat + 1` ring iterations —
the bound at which the candidate radius `(i+1)*dr` must reach `Rmax`. The
quantification over all `dr` in the original claim fails:
`grow_dr_zero_no_exit` shows the loop never exits when `dr = 0`. -/
theorem grow_terminates_for_positive_dr (data : NpArray) (x0 y0 : ℤ)
    (Icrit : ℚ) (dr Rmax : ℤ) (h : 1 ≤ dr) :
    (growAux data x0 y0 Icrit dr Rmax (Rmax.toNat + 1) 0).isSome = true := by
  apply growAux_reaches data x0 y0 Icrit dr Rmax Rmax.toNat 0
  apply growStep_isSome_of_reached
  have h1 : Rmax ≤ (Rmax.toNat : ℤ) := Int.self_le_toNat Rmax
  have h2 : ((0 + Rmax.toNat : ℕ) : ℤ) + 1 = (Rmax.toNat : ℤ) + 1 := by
    push_cast; ring
  rw [h2]
  nlinarith

/-- Claim C6, counterexample to the original wording: with `dr = 0` (allowed
by the claim's universal quantification over `dr`) the growth loop on a
concrete 3×3 image never reaches an exit branch in any number of
iterations. -/
theorem grow_dr_zero_no_exit : ¬ growTerminates img3 1 1 5 0 50 := by
  rintro ⟨fuel, hf⟩
  rw [growAux_dr_zero img3 1 1 5 50 (by norm_num)] at hf
  simp at hf

/-- Witness for `grow_terminates_for_positive_dr` at a concrete input. -/
theorem grow_terminates_for_positive_dr_witness :
    (1 : ℤ) ≤ 1 ∧
      (growAux img3 1 1 1 1 2 ((2 : ℤ).toNat + 1) 0).isSome = true :=
  ⟨by norm_num, grow_terminates_for_positive_dr img3 1 1 1 1 2 (by norm_num)⟩

/-! ### The radius invariant of the two exit paths -/

/-- The two exit shapes of a loop iteration: the flux-threshold exit emits
radius `(i+1)*dr`, the radius-exhausted exit emits `Rmax` (and can only fire
once the candidate radius has reached `Rmax`). -/
theorem growStep_cases (data : NpArray) (x0 y0 : ℤ) (Icrit : ℚ)
    (dr Rmax : ℤ) (i : ℕ) (ap : Aperture)
    (h : growStep data x0 y0 Icrit dr Rmax i = some ap) :
    ap = ⟨x0, y0, ((i : ℤ) + 1) * dr, ((i : ℤ) + 1) * dr⟩ ∨
      (ap = ⟨x0, y0, Rmax, Rmax⟩ ∧ Rmax ≤ ((i : ℤ) + 1) * dr) := by
  simp only [growStep] at h
  split_ifs at h with h1 h2
  · left; exact (Option.some.inj h).symm
  · right; exact ⟨(Option.some.inj h).symm, h2⟩

/-- A non-exiting loop iteration has a candidate radius still short of
`Rmax`. -/
theorem growStep_none_radius (data : NpArray) (x0 y0 : ℤ) (Icrit : ℚ)
    (dr Rmax : ℤ) (i : ℕ)
    (h : growStep data x0 y0 Icrit dr Rmax i = none) :
    ((i : ℤ) + 1) * dr < Rmax := by
  simp only [growStep] at h
  split_ifs at h with h1 h2
  exact lt_of_not_le h2

/-- Loop invariant: starting from a ring index whose inner radius is still
below `Rmax`, with `dr ≥ 1` and `dr ∣ Rmax` any emitted aperture is circular
with radius a multiple of `dr` inside `[dr, Rmax]`. -/
theorem growAux_radius_inv (data : NpArray) (x0 y0 : ℤ) (Icrit : ℚ)
    (dr Rmax : ℤ) (h1 : 1 ≤ dr) (h3 : dr ∣ Rmax) :
    ∀ (fuel i : ℕ) (ap : Aperture), (i : ℤ) * dr < Rmax →
      growAux data x0 y0 Icrit dr Rmax fuel i = some ap →
      ap.a = ap.b ∧ dr ∣ ap.a ∧ dr ≤ ap.a ∧ ap.a ≤ Rmax := by
  intro fuel
  induction fuel with
  | zero => intro i ap _ hrun; exact absurd hrun (by simp [growAux])
  | succ n ih =>
    intro i ap hpre hrun
    rw [growAux] at hrun
    cases hs : growStep data x0 y0 Icrit dr Rmax i with
    | some ap2 =>
      rw [hs] at hrun
      have hap : ap2 = ap := Option.some.inj hrun
      rcases growStep_cases data x0 y0 Icrit dr Rmax i ap2 hs with he | ⟨he, _⟩
      · subst hap
        rw [he]
        obtain ⟨c, hc⟩ := h3
        have hdrpos : (0 : ℤ) < dr := by linarith
        have hic : (i : ℤ) < c := by
          have hlt : (i : ℤ) * dr < c * dr := by
            rw [mul_comm c dr, ← hc]; exact hpre
          exact lt_of_mul_lt_mul_right hlt (by linarith)
        have hi1 : (0 : ℤ) ≤ (i : ℤ) := Int.natCast_nonneg i
        refine ⟨rfl, dvd_mul_left dr ((i : ℤ) + 1), ?_, ?_⟩
        · show dr ≤ ((i : ℤ) + 1) * dr
          exact le_mul_of_one_le_left (by linarith) (by linarith)
        · show ((i : ℤ) + 1) * dr ≤ Rmax
          have h5 : ((i : ℤ) + 1) * dr ≤ c * dr :=
            mul_le_mul_of_nonneg_right (by linarith) (by linarith)
          rw [hc, mul_comm dr c]
          exact h5
      · subst hap
        rw [he]
        have hi1 : (0 : ℤ) ≤ (i : ℤ) := Int.natCast_nonneg i
        have hRpos : (0 : ℤ) < Rmax :=
          lt_of_le_of_lt (mul_nonneg hi1 (by linarith)) hpre
        exact ⟨rfl, h3, Int.le_of_dvd hRpos h3, le_refl Rmax⟩
    | none =>
      rw [hs] at hrun
      exact ih (i + 1) ap (by push_cast; exact growStep_none_radius data x0 y0 Icrit dr Rmax i hs) hrun

/-- Claim C4 (corrected): under the additional hypothesis `dr ∣ Rmax` —
forced by the counterexample `grow_rmax_exit_not_multiple_of_dr`, where the
radius-exhausted path emits `a = Rmax` not a multiple of `dr` — every
aperture emitted by a grow call entered at ring 0 is circular (`a = b`) with
`a` a positive multiple of the ring step and `dr ≤ a ≤ Rmax`, on both exit
paths. -/
theorem grow_radius_invariant (data : NpArray) (x0 y0 : ℤ) (Icrit : ℚ)
    (dr Rmax : ℤ) (h1 : 1 ≤ dr) (h2 : dr ≤ Rmax) (h3 : dr ∣ Rmax)
    (fuel : ℕ) (ap : Aperture)
    (hrun : growAux data x0 y0 Icrit dr Rmax fuel 0 = some ap) :
    ap.a = ap.b ∧ dr ∣ ap.a ∧ dr ≤ ap.a ∧ ap.a ≤ Rmax :=
  growAux_radius_inv data x0 y0 Icrit dr Rmax h1 h3 fuel 0 ap
    (by simpa using lt_of_lt_of_le (lt_of_lt_of_le Int.zero_lt_one h1) h2) hrun

/-- Claim C4, counterexample to the original wording: with `dr = 3 > 0` and
`Rmax = 4 ≥ dr` (both allowed by the claim) on a 1×1 image whose only annulus
average never drops below `Icrit = 0`, the radius-exhausted exit emits
`a = b = Rmax = 4`, which is not an integer multiple of `dr = 3`. -/
theorem grow_rmax_exit_not_multiple_of_dr :
    growAux img0 0 0 0 3 4 5 0 = some ⟨0, 0, 4, 4⟩ ∧ ¬ (3 : ℤ) ∣ 4 := by
  constructor
  · decide
  · decide

/-- Witness for `grow_radius_invariant` at a concrete input: `dr = 1`,
`Rmax = 2`, all-zero 1×1 image, `Icrit = 1`; ring 0 exits with the radius-1
aperture. -/
theorem grow_radius_invariant_witness :
    (1 : ℤ) ≤ 1 ∧ ((1 : ℤ) ∣ 2) ∧
      ((Aperture.mk 0 0 1 1).a = (Aperture.mk 0 0 1 1).b ∧
        (1 : ℤ) ∣ (Aperture.mk 0 0 1 1).a ∧
        (1 : ℤ) ≤ (Aperture.mk 0 0 1 1).a ∧ (Aperture.mk 0 0 1 1).a ≤ 2) :=
  ⟨le_refl 1, ⟨2, by norm_num⟩,
   grow_radius_invariant img0 0 0 1 1 2 (le_refl 1) (by norm_num)
     ⟨2, by norm_num⟩ 5 ⟨0, 0, 1, 1⟩ (by decide)⟩

/-! ### Structure of the chunk partition -/

/-- Chunking the empty list gives no chunks, for any fuel. -/
theorem chunkGoAux_nil {α : Type} (n fuel : ℕ) :
    chunkGoAux n fuel ([] : List α) = [] := by
  cases fuel <;> rfl

/-- Concatenating the chunks in chunk order restores the list. -/
theorem chunkGoAux_flatten {α : Type} (n : ℕ) (hn : 1 ≤ n) :
    ∀ (fuel : ℕ) (l : List α), l.length ≤ fuel →
      (chunkGoAux n fuel l).flatten = l := by
  intro fuel
  induction fuel with
  | zero =>
    intro l hl
    have hln : l = [] := List.length_eq_zero.mp (Nat.le_zero.mp hl)
    subst hln; rfl
  | succ m ih =>
    intro l hl
    cases l with
    | nil => rfl
    | cons x xs =>
      simp only [chunkGoAux, List.flatten_cons]
      rw [ih (xs.drop (n - 1)) (by simp only [List.length_drop]; simp only [List.length_cons] at hl; omega)]
      obtain ⟨m2, rfl⟩ : ∃ m2, n = m2 + 1 := ⟨n - 1, by omega⟩
      have hm2 : m2 + 1 - 1 = m2 := by omega
      rw [hm2, List.take_succ_cons, List.cons_append, List.take_append_drop]

/-- The number of chunks is `⌈len/n⌉` (`= (len + n - 1) / n`). -/
theorem chunkGoAux_length {α : Type} (n : ℕ) (hn : 1 ≤ n) :
    ∀ (fuel : ℕ) (l : List α), l.length ≤ fuel →
      (chunkGoAux n fuel l).length = (l.length + n - 1) / n := by
  intro fuel
  induction fuel with
  | zero =>
    intro l hl
    have hln : l = [] := List.length_eq_zero.mp (Nat.le_zero.mp hl)
    subst hln
    simp [chunkGoAux_nil]
    symm
    apply Nat.div_eq_of_lt
    omega
  | succ m ih =>
    intro l hl
    cases l with
    | nil =>
      simp [chunkGoAux_nil]
      symm
      apply Nat.div_eq_of_lt
      omega
    | cons x xs =>
      simp only [chunkGoAux, List.length_cons]
      rw [ih (xs.drop (n - 1)) (by simp only [List.length_drop]; simp only [List.length_cons] at hl; omega)]
      rw [List.length_drop]
      have hnum : xs.length + 1 + n - 1 = xs.length + n := by omega
      rw [hnum, Nat.add_div_right xs.length (by omega)]
      have hcongr : (xs.length - (n - 1) + n - 1) / n = xs.length / n := by
        by_cases hL : n - 1 ≤ xs.length
        · have : xs.length - (n - 1) + n - 1 = xs.length := by omega
          rw [this]
        · have e1 : xs.length - (n - 1) + n - 1 = n - 1 := by omega
          rw [e1, Nat.div_eq_of_lt (by omega), Nat.div_eq_of_lt (by omega)]
      rw [hcongr]

/-- Every chunk except possibly the last has exactly `n` elements. -/
theorem chunkGoAux_sizes {α : Type} (n : ℕ) (hn : 1 ≤ n) :
    ∀ (fuel : ℕ) (l : List α), l.length ≤ fuel →
      ∀ c ∈ (chunkGoAux n fuel l).dropLast, c.length = n := by
  intro fuel
  induction fuel with
  | zero =>
    intro l hl
    have hln : l = [] := List.length_eq_zero.mp (Nat.le_zero.mp hl)
    subst hln
    simp [chunkGoAux_nil]
  | succ m ih =>
    intro l hl
    cases l with
    | nil => simp [chunkGoAux_nil]
    | cons x xs =>
      simp only [chunkGoAux]
      cases hr : chunkGoAux n m (xs.drop (n - 1)) with
      | nil => simp
      | cons c2 cs2 =>
        have hne : xs.drop (n - 1) ≠ [] := by
          intro hd
          rw [hd, chunkGoAux_nil] at hr
          exact List.noConfusion hr
        have hlen : n - 1 < xs.length := by
          by_contra hcon
          exact hne (List.drop_eq_nil_of_le (by omega))
        intro c hc
        rw [List.dropLast_cons₂] at hc
        rcases List.mem_cons.mp hc with hc1 | hc2
        · subst hc1
          rw [List.length_take]
          simp only [List.length_cons]
          omega
        · have := ih (xs.drop (n - 1)) (by simp only [List.length_drop]; simp only [List.length_cons] at hl; omega)
          rw [hr] at this
          exact this c hc2

/-- Concatenating the chunks restores the list (`chunkGo` form). -/
theorem chunkGo_flatten {α : Type} (n : ℕ) (hn : 1 ≤ n) (l : List α) :
    (chunkGo n l).flatten = l :=
  chunkGoAux_flatten n hn l.length l (le_refl _)

/-- Claim C3 (corrected): `fit_apertures` computes `n = floor(len/wc)` and
splits the centroid list into `⌈len/n⌉` contiguous chunks of size `n`, all
full except a possibly-smaller final chunk — not into exactly `wc` chunks
with an oversized last chunk. The chunk count equals `wc` only when `wc`
divides `len` (see `chunking_ten_over_three_makes_four_chunks` for the
refuting instance); when `len < wc` the comprehension raises `ValueError`
instead of chunking. -/
theorem makeChunks_structure {α : Type} (l : List α) (wc : ℕ)
    (h1 : 1 ≤ wc) (h2 : wc ≤ l.length) :
    ∃ cs, makeChunks l wc = some cs ∧
      cs.flatten = l ∧
      cs.length = (l.length + l.length / wc - 1) / (l.length / wc) ∧
      ∀ c ∈ cs.dropLast, c.length = l.length / wc := by
  have hn : 1 ≤ l.length / wc := (Nat.one_le_div_iff (by omega)).mpr h2
  refine ⟨chunkGo (l.length / wc) l, ?_, ?_, ?_, ?_⟩
  · simp only [makeChunks]
    rw [if_neg (by omega)]
  · exact chunkGo_flatten _ hn l
  · exact chunkGoAux_length _ hn l.length l (le_refl _)
  · exact chunkGoAux_sizes _ hn l.length l (le_refl _)

/-- Ten centroids at integer positions, used to refute the claimed chunk
count. -/
def mps10 : List (ℤ × ℤ) := (List.range 10).map (fun k => ((k : ℤ), 0))

/-- Claim C3, counterexample to the original wording: for 10 centroids and 3
workers the code produces 4 chunks (sizes 3,3,3,1), not the claimed exactly-3
chunks with the last absorbing the remainder (sizes 3,3,4). -/
theorem chunking_ten_over_three_makes_four_chunks :
    (makeChunks mps10 3).map List.length = some 4 ∧
      (makeChunks mps10 3).map List.length ≠ some 3 := by
  constructor
  · decide
  · decide

/-- Witness for `makeChunks_structure` at the concrete 10-over-3 input. -/
theorem makeChunks_structure_witness :
    1 ≤ 3 ∧ 3 ≤ mps10.length ∧
      (∃ cs, makeChunks mps10 3 = some cs ∧
        cs.flatten = mps10 ∧
        cs.length = (mps10.length + mps10.length / 3 - 1) / (mps10.length / 3) ∧
        ∀ c ∈ cs.dropLast, c.length = mps10.length / 3) :=
  ⟨by norm_num, by decide, makeChunks_structure mps10 3 (by norm_num) (by decide)⟩

/-! ### Order preservation of the chunked dispatch -/

/-- Flattening chunkwise-mapped chunks maps the flattened list. -/
theorem flatten_map_map {α β : Type} (f : α → β) :
    ∀ cs : List (List α), (cs.map (List.map f)).flatten = List.map f cs.flatten := by
  intro cs
  induction cs with
  | nil => rfl
  | cons c cs ih =>
    simp only [List.map_cons, List.flatten_cons, ih, List.map_append]

/-- Claim C7: when every chunk is nonempty (centroid count at least the
worker count), concatenating the per-chunk aperture lists in chunk order
yields exactly one grow result per input centroid, in input order: the
dispatch equals a single ordered map of the grow call over the centroid
list. -/
theorem fit_apertures_one_per_centroid (fuel : ℕ) (data : NpArray)
    (Icrit : ℚ) (mps : List (ℤ × ℤ)) (dr Rmax : ℤ) (wc : ℕ)
    (h1 : 1 ≤ wc) (h2 : wc ≤ mps.length) :
    fit_apertures_pure fuel data Icrit mps dr Rmax wc =
      some (mps.map (growOne fuel data Icrit Rmax dr)) := by
  have hn : 1 ≤ mps.length / wc := (Nat.one_le_div_iff (by omega)).mpr h2
  simp only [fit_apertures_pure, makeChunks]
  rw [if_neg (by omega)]
  simp only [Option.map_some']
  congr 1
  calc ((chunkGo (mps.length / wc) mps).map
          (fit_apertures_worker fuel data Icrit Rmax dr)).flatten
      = ((chunkGo (mps.length / wc) mps).map
          (List.map (growOne fuel data Icrit Rmax dr))).flatten := rfl
    _ = List.map (growOne fuel data Icrit Rmax dr)
          (chunkGo (mps.length / wc) mps).flatten := flatten_map_map _ _
    _ = mps.map (growOne fuel data Icrit Rmax dr) := by
          rw [chunkGo_flatten _ hn mps]

/-- Witness for `fit_apertures_one_per_centroid` on two concrete centroids
with one worker. -/
theorem fit_apertures_one_per_centroid_witness :
    1 ≤ ([((0 : ℤ), (0 : ℤ)), (1, 1)] : List (ℤ × ℤ)).length ∧
      fit_apertures_pure 3 img3 1 [(0, 0), (1, 1)] 1 5 1 =
        some (([((0 : ℤ), (0 : ℤ)), (1, 1)] : List (ℤ × ℤ)).map
          (growOne 3 img3 1 5 1)) :=
  ⟨by decide,
   fit_apertures_one_per_centroid 3 img3 1 [(0, 0), (1, 1)] 1 5 1
     (le_refl 1) (by decide)⟩

/-! ### The annulus membership test partitions the plane -/

/-- For a positive width `D`, every natural `n` lies in exactly one interval
`[(i*D)^2, ((i+1)*D)^2)`. -/
theorem ring_partition_nat (D : ℕ) (hD : 1 ≤ D) (n : ℕ) :
    ∃! i : ℕ, (i * D) ^ 2 ≤ n ∧ n < ((i + 1) * D) ^ 2 := by
  have hsq : n.sqrt / D * D ≤ n.sqrt := Nat.div_mul_le_self _ _
  have hdm := Nat.div_add_mod n.sqrt D
  have hm := Nat.mod_lt n.sqrt (show 0 < D by omega)
  have hup : n.sqrt < (n.sqrt / D + 1) * D := by
    rw [Nat.add_mul, Nat.one_mul, Nat.mul_comm (n.sqrt / D) D]
    omega
  refine ⟨n.sqrt / D, ⟨?_, ?_⟩, ?_⟩
  · calc (n.sqrt / D * D) ^ 2 ≤ n.sqrt ^ 2 := Nat.pow_le_pow_left hsq 2
      _ ≤ n := Nat.sqrt_le' n
  · exact Nat.sqrt_lt'.mp hup
  · intro j hj
    obtain ⟨hj1, hj2⟩ := hj
    by_contra hne
    rcases lt_or_gt_of_ne hne with hlt | hgt
    · have hle : ((j + 1) * D) ^ 2 ≤ (n.sqrt / D * D) ^ 2 :=
        Nat.pow_le_pow_left (Nat.mul_le_mul_right D (by omega)) 2
      have hc1 : (n.sqrt / D * D) ^ 2 ≤ n := by
        calc (n.sqrt / D * D) ^ 2 ≤ n.sqrt ^ 2 := Nat.pow_le_pow_left hsq 2
          _ ≤ n := Nat.sqrt_le' n
      omega
    · have hle : ((n.sqrt / D + 1) * D) ^ 2 ≤ (j * D) ^ 2 :=
        Nat.pow_le_pow_left (Nat.mul_le_mul_right D (by omega)) 2
      have hc2 : n < ((n.sqrt / D + 1) * D) ^ 2 := Nat.sqrt_lt'.mp hup
      omega

/-- Claim C8: for every ring width `dr ≥ 1` and every pixel `(x, y)` with
center `(x0, y0)`, exactly one ring index `i` satisfies the annulus
membership test `(i*dr)^2 ≤ d2 < ((i+1)*dr)^2` used by
`measure_average_flux`: the rings partition the plane with no gaps and no
overlaps. -/
theorem annulus_ring_partition (dr : ℤ) (hdr : 1 ≤ dr) (x y x0 y0 : ℤ) :
    ∃! i : ℕ, annCond ((i : ℤ) * dr) dr ((x - x0) ^ 2 + (y - y0) ^ 2) = true := by
  set d2 : ℤ := (x - x0) ^ 2 + (y - y0) ^ 2 with hd2def
  have hd2 : 0 ≤ d2 := by positivity
  have hdrD : ((dr.toNat : ℤ)) = dr := Int.toNat_of_nonneg (by omega)
  have hd2n : ((d2.toNat : ℤ)) = d2 := Int.toNat_of_nonneg hd2
  have hD : 1 ≤ dr.toNat := by omega
  have hbr : ∀ i : ℕ,
      (annCond ((i : ℤ) * dr) dr d2 = true) ↔
        ((i * dr.toNat) ^ 2 ≤ d2.toNat ∧
          d2.toNat < ((i + 1) * dr.toNat) ^ 2) := by
    intro i
    have e1 : (((i : ℤ)) * dr) ^ 2 ≤ d2 ↔ (i * dr.toNat) ^ 2 ≤ d2.toNat := by
      rw [← hdrD, ← hd2n]
      have he : ((i : ℤ)) * (dr.toNat : ℤ) = ((i * dr.toNat : ℕ) : ℤ) := by
        push_cast; ring
      rw [he]
      exact_mod_cast Iff.rfl
    have e2 : d2 < ((i : ℤ) * dr + dr) ^ 2 ↔
        d2.toNat < ((i + 1) * dr.toNat) ^ 2 := by
      rw [← hdrD, ← hd2n]
      have he : ((i : ℤ)) * (dr.toNat : ℤ) + (dr.toNat : ℤ) =
          (((i + 1) * dr.toNat : ℕ) : ℤ) := by
        push_cast; ring
      rw [he]
      exact_mod_cast Iff.rfl
    simp only [annCond, Bool.and_eq_true, decide_eq_true_eq]
    rw [e1, e2]
  obtain ⟨i, hi, huniq⟩ := ring_partition_nat dr.toNat hD d2.toNat
  exact ⟨i, (hbr i).mpr hi, fun j hj => huniq j ((hbr j).mp hj)⟩

/-- Witness for `annulus_ring_partition` at `dr = 2` and the pixel `(3, 4)`
around the origin. -/
theorem annulus_ring_partition_witness :
    (1 : ℤ) ≤ 2 ∧
      ∃! i : ℕ, annCond ((i : ℤ) * 2) 2 ((3 - 0) ^ 2 + (4 - 0) ^ 2) = true :=
  ⟨by norm_num, annulus_ring_partition 2 (by norm_num) 3 4 0 0⟩

/-- Claim C9: `starmask` never mutates the caller's image array. The only
in-place write of the pipeline (`data[mask] = nan`) happens at a store index
freshly allocated by the defensive copy `data = np.array(data)` inside the
aperture-fitting stage (on top of the `np.array(data)` copy made at the call
line), so after the call the input reference holds the original array,
element for element; this holds for every choice of the external
collaborators. -/
theorem starmask_preserves_input (c : Collab) (fuel : ℕ) (s : NpStore)
    (rData : ℕ) (saturate Icrit : ℚ)
    (convolve_size dilate_size dr Rmax : ℤ) (nt NT : ℕ)
    (h : rData < s.length) :
    ((starmask_st c fuel s rData saturate Icrit convolve_size dilate_size dr
        Rmax nt NT).1)[rData]? = s[rData]? := by
  simp only [starmask_st, fit_apertures_st]
  rw [List.getElem?_set_ne (by simp; omega)]
  rw [List.getElem?_append_left (by simp; omega)]
  rw [List.getElem?_append_left h]

/-- Witness for `starmask_preserves_input`: a concrete one-array store. -/
theorem starmask_preserves_input_witness :
    0 < ([img0] : NpStore).length ∧
      ((starmask_st collab0 5 [img0] 0 1 1 0 0 1 5 4 4).1)[0]? =
        ([img0] : NpStore)[0]? :=
  ⟨by norm_num,
   starmask_preserves_input collab0 5 [img0] 0 1 1 0 0 1 5 4 4 (by norm_num)⟩

/-- Claim C10: the `Nthreads` argument of `starmask` is never forwarded —
line 217 passes the module constant `NTHREADS` to `fit_apertures` — so two
calls differing only in `Nthreads` return identical stores and masks. -/
theorem starmask_ignores_nthreads_argument (c : Collab) (fuel : ℕ)
    (s : NpStore) (rData : ℕ) (saturate Icrit : ℚ)
    (convolve_size dilate_size dr Rmax : ℤ) (nt1 nt2 NT : ℕ) :
    starmask_st c fuel s rData saturate Icrit convolve_size dilate_size dr
        Rmax nt1 NT =
      starmask_st c fuel s rData saturate Icrit convolve_size dilate_size dr
        Rmax nt2 NT := rfl

end DeepScan
